import Mathlib

/-!
Verification development for the embassy fork's dynamic-tick-rate time
arithmetic (embassy-time/src/duration_dynamic.rs, embassy-time/src/lib.rs),
the Tock-architecture executor loop (embassy-executor/src/arch/tock.rs) and
the entry-point macro validation (embassy-executor-macros/src/macros/main.rs).

Machine integers (u64) are modelled as Nat with explicit wrapping via
`% U64MOD` exactly where the Rust code can wrap; fallible operations
(checked arithmetic, panicking division) are modelled with Option, where
`none` stands for an absent result or a panic.
-/

/-- Modulus of u64 arithmetic. -/
def U64MOD : Nat := 2 ^ 64

/-- Recursive gcd as written in embassy-time/src/lib.rs:
gcd(a, b) = if b == 0 { a } else { gcd(b, a % b) }. -/
def gcdR (a b : Nat) : Nat :=
  if h : b = 0 then a else gcdR b (a % b)
termination_by b
decreasing_by exact Nat.mod_lt _ (Nat.pos_of_ne_zero h)

/-- gcd_1k() from embassy-time/src/lib.rs: gcd(frequency(), 1000).
The runtime-queried tick frequency is passed explicitly. -/
def gcd_1k (freq : Nat) : Nat := gcdR freq 1000

/-- Duration from embassy-time/src/duration_dynamic.rs: a single u64 tick count. -/
structure Duration where
  ticks : Nat
deriving DecidableEq, Repr

/-- div_ceil from duration_dynamic.rs: (num + den - 1) / den, in wrapping u64
arithmetic (the addition and the subtraction each wrap mod 2^64). -/
def div_ceil (num den : Nat) : Nat :=
  (((num + den) % U64MOD + (U64MOD - 1)) % U64MOD) / den

/-- Duration::as_millis: self.ticks * (1000 / gcd_1k()) / (frequency() / gcd_1k()),
the multiplication wrapping mod 2^64. -/
def Duration.as_millis (freq : Nat) (d : Duration) : Nat :=
  d.ticks * (1000 / gcd_1k freq) % U64MOD / (freq / gcd_1k freq)

/-- Duration::from_millis: div_ceil(millis * (frequency() / gcd_1k()), 1000 / gcd_1k()),
the multiplication wrapping mod 2^64. -/
def Duration.from_millis (freq millis : Nat) : Duration :=
  ⟨div_ceil (millis * (freq / gcd_1k freq) % U64MOD) (1000 / gcd_1k freq)⟩

/-- Duration::from_millis_floor: millis * (frequency() / gcd_1k()) / (1000 / gcd_1k()),
the multiplication wrapping mod 2^64. -/
def Duration.from_millis_floor (freq millis : Nat) : Duration :=
  ⟨millis * (freq / gcd_1k freq) % U64MOD / (1000 / gcd_1k freq)⟩

/-- Duration::try_from_millis: millis.checked_mul(frequency() / gcd_1k()) and,
when the multiplication does not overflow u64, div_ceil of the product
by 1000 / gcd_1k(); otherwise None. -/
def Duration.try_from_millis (freq millis : Nat) : Option Duration :=
  if millis * (freq / gcd_1k freq) < U64MOD then
    some ⟨div_ceil (millis * (freq / gcd_1k freq)) (1000 / gcd_1k freq)⟩
  else
    none

/-- Duration::from_hz: 1 tick when hz >= frequency(); otherwise
(frequency() + hz / 2) / hz, the addition wrapping mod 2^64 and the final
division panicking (modelled as none) when hz = 0. -/
def Duration.from_hz (freq hz : Nat) : Option Duration :=
  if freq ≤ hz then
    some ⟨1⟩
  else if hz = 0 then
    none
  else
    some ⟨(freq + hz / 2) % U64MOD / hz⟩

/-- Duration::checked_add: u64 checked addition of the tick counts. -/
def Duration.checked_add (a b : Duration) : Option Duration :=
  if a.ticks + b.ticks < U64MOD then some ⟨a.ticks + b.ticks⟩ else none

/-- Duration::checked_sub: u64 checked subtraction of the tick counts. -/
def Duration.checked_sub (a b : Duration) : Option Duration :=
  if b.ticks ≤ a.ticks then some ⟨a.ticks - b.ticks⟩ else none

/-- Duration::checked_mul: u64 checked multiplication by a u32 scalar. -/
def Duration.checked_mul (a : Duration) (rhs : Nat) : Option Duration :=
  if a.ticks * rhs < U64MOD then some ⟨a.ticks * rhs⟩ else none

/-- Duration::checked_div: u64 checked division by a u32 scalar
(None exactly on a zero divisor). -/
def Duration.checked_div (a : Duration) (rhs : Nat) : Option Duration :=
  if rhs = 0 then none else some ⟨a.ticks / rhs⟩

/-- impl Add for Duration: checked_add followed by expect; the panic on
overflow is modelled as none. -/
def Duration.add (a b : Duration) : Option Duration := a.checked_add b

/-- impl Sub for Duration: checked_sub followed by expect; the panic on
underflow is modelled as none. -/
def Duration.sub (a b : Duration) : Option Duration := a.checked_sub b

/-- impl Mul of u32 for Duration: checked_mul followed by expect; the panic
on overflow is modelled as none. -/
def Duration.mul (a : Duration) (rhs : Nat) : Option Duration := a.checked_mul rhs

/-- impl Div of u32 for Duration: checked_div followed by expect; the panic
on a zero divisor is modelled as none. -/
def Duration.div (a : Duration) (rhs : Nat) : Option Duration := a.checked_div rhs

/-! ### Tock executor loop (embassy-executor/src/arch/tock.rs)

Executor::run(init) calls init once, then loops forever:
each iteration swaps SIGNAL_WORK to false; if the swapped-out value was
false it calls S::yield_wait(), otherwise it polls the run queue and
calls S::yield_no_wait(). The pender environment (whether __pender stored
true into SIGNAL_WORK during iteration n) is an oracle pend : Nat → Bool;
flag0 is the flag value when the loop is entered. -/

/-- Observable events of Executor::run. -/
inductive Ev where
  | initEv : Ev
  | swapEv : Bool → Ev
  | pollEv : Ev
  | yieldWaitEv : Ev
  | yieldNoWaitEv : Ev
deriving DecidableEq, Repr

/-- One iteration of the loop body of Executor::run, given the value of
SIGNAL_WORK observed by the atomic swap. -/
def loopIter (flag : Bool) : List Ev :=
  if flag then [Ev.swapEv true, Ev.pollEv, Ev.yieldNoWaitEv]
  else [Ev.swapEv false, Ev.yieldWaitEv]

/-- Value of SIGNAL_WORK observed by the swap of iteration n: the swap sets
the flag to false, and the pender may set it back to true before the next
iteration's swap. -/
def flagAt (flag0 : Bool) (pend : Nat → Bool) : Nat → Bool
  | 0 => flag0
  | n + 1 => pend n

/-- Event trace of Executor::run after the init call and n loop iterations. -/
def runTrace (flag0 : Bool) (pend : Nat → Bool) : Nat → List Ev
  | 0 => [Ev.initEv]
  | n + 1 => runTrace flag0 pend n ++ loopIter (flagAt flag0 pend n)

/-! ### Entry-point macro model (embassy-executor-macros/src/macros/main.rs) -/

/-- Return type shape of the user routine, as inspected by run():
no return type, the empty tuple, the never type, or anything else. -/
inductive RetKind where
  | default : RetKind
  | emptyTuple : RetKind
  | never : RetKind
  | other : RetKind
deriving DecidableEq, Repr

/-- Shape of the user routine signature, as inspected by run() in main.rs. -/
structure FnSig where
  isAsync : Bool
  numGenerics : Nat
  hasWhereClause : Bool
  hasAbi : Bool
  isVariadic : Bool
  ret : RetKind
  numArgs : Nat
deriving DecidableEq, Repr

/-- Number of signature-shape errors accumulated by run() in main.rs
(lines 114-144): non-async, generic, where-clause, ABI qualifier,
variadic, disallowed return type, argument count different from 1. -/
def sigErrors (s : FnSig) : Nat :=
  (if s.isAsync then 0 else 1) +
  (if s.numGenerics = 0 then 0 else 1) +
  (if s.hasWhereClause then 1 else 0) +
  (if s.hasAbi then 1 else 0) +
  (if s.isVariadic then 1 else 0) +
  (if s.ret = RetKind.other then 1 else 0) +
  (if s.numArgs = 1 then 0 else 1)

/-- Target flavor of the macro (main.rs enum Flavor). -/
inductive Flavor where
  | standard : Flavor
  | wasm : Flavor
  | tock : Flavor
deriving DecidableEq, Repr

/-- Errors added by the Tock stack-size check (main.rs lines 223-238):
one error exactly when the flavor is Tock and no stack_size argument was
supplied. -/
def stackSizeErrors (fl : Flavor) (stackSize : Option Nat) : Nat :=
  if fl = Flavor.tock ∧ stackSize = none then 1 else 0

/-- Total errors accumulated by run(): argument-parsing / entry / executor
errors (abstracted as argErrors), the signature-shape errors and the Tock
stack-size error. -/
def totalErrors (fl : Flavor) (stackSize : Option Nat) (s : FnSig) (argErrors : Nat) : Nat :=
  argErrors + sigErrors s + stackSizeErrors fl stackSize

/-- Shape of the emitted fn main body. -/
inductive MainBody where
  | runsExecutor : MainBody
  | emptyLoop : MainBody
deriving DecidableEq, Repr

/-- Body of the emitted fn main (main.rs lines 332-334): the executor-running
body, replaced by an infinite empty loop whenever any error accumulated. -/
def mainBody (fl : Flavor) (stackSize : Option Nat) (s : FnSig) (argErrors : Nat) : MainBody :=
  if totalErrors fl stackSize s argErrors = 0 then MainBody.runsExecutor else MainBody.emptyLoop

/-! ### Helper lemmas -/

theorem gcdR_eq (a b : Nat) : gcdR a b = Nat.gcd a b := by
  induction b using Nat.strong_induction_on generalizing a with
  | _ b ih =>
    rw [gcdR]
    by_cases h : b = 0
    · simp [h]
    · rw [dif_neg h, ih (a % b) (Nat.mod_lt _ (Nat.pos_of_ne_zero h)) b,
        Nat.gcd_comm b (a % b), Nat.gcd_comm a b, Nat.gcd_rec b a]

theorem gcd_1k_eq (f : Nat) : gcd_1k f = Nat.gcd f 1000 := gcdR_eq f 1000

theorem U64MOD_eq : U64MOD = 18446744073709551616 := by norm_num [U64MOD]

theorem div_eq_one_of (n d : Nat) (h1 : d ≤ n) (h2 : n < 2 * d) : n / d = 1 := by
  have hd : 0 < d := by omega
  have hlt : n / d < 2 := (Nat.div_lt_iff_lt_mul hd).mpr h2
  have hge : 1 ≤ n / d := (Nat.le_div_iff_mul_le hd).mpr (by omega)
  exact Nat.le_antisymm (Nat.lt_succ_iff.mp hlt) hge

theorem wrap_pred_mod (n : Nat) (h1 : 1 ≤ n) (h2 : n ≤ U64MOD) :
    (n % U64MOD + (U64MOD - 1)) % U64MOD = n - 1 := by
  rw [U64MOD_eq] at h2 ⊢
  omega

theorem div_ceil_eq (num den : Nat) (h1 : 0 < den) (h2 : num + den ≤ U64MOD) :
    div_ceil num den = (num + den - 1) / den := by
  unfold div_ceil
  rw [wrap_pred_mod (num + den) (by omega) h2]

theorem div_ceil_scale (a b c : Nat) (hb : 0 < b) (hc : 0 < c) :
    (a * c + b * c - 1) / (b * c) = (a + b - 1) / b := by
  have hdm := Nat.div_add_mod a b
  set q := a / b with hq
  set r := a % b with hrdef
  have hr : r < b := Nat.mod_lt _ hb
  have hbc : 0 < b * c := Nat.mul_pos hb hc
  have ha : a = b * q + r := by omega
  have hne : a * c + b * c - 1 = (b * c) * q + (r * c + b * c - 1) := by
    have hac : a * c = (b * c) * q + r * c := by rw [ha]; ring
    omega
  rw [hne, Nat.mul_add_div hbc]
  have hrb : a + b - 1 = b * q + (r + b - 1) := by omega
  rw [hrb, Nat.mul_add_div hb]
  congr 1
  rcases Nat.eq_zero_or_pos r with h0 | h1
  · rw [h0, Nat.zero_mul, Nat.zero_add, Nat.zero_add,
      Nat.div_eq_of_lt (by omega), Nat.div_eq_of_lt (by omega)]
  · have hrc : 0 < r * c := Nat.mul_pos h1 hc
    have hrcb : r * c < b * c := mul_lt_mul_of_pos_right hr hc
    rw [div_eq_one_of _ _ (by omega) (by omega), div_eq_one_of _ _ (by omega) (by omega)]

theorem gcd_1k_facts (f : Nat) :
    0 < gcd_1k f ∧ gcd_1k f * (1000 / gcd_1k f) = 1000 ∧ gcd_1k f * (f / gcd_1k f) = f ∧
    0 < 1000 / gcd_1k f ∧ 1000 / gcd_1k f ≤ 1000 := by
  rw [gcd_1k_eq]
  have hg : 0 < Nat.gcd f 1000 := Nat.gcd_pos_of_pos_right _ (by norm_num)
  exact ⟨hg, Nat.mul_div_cancel' (Nat.gcd_dvd_right f 1000),
    Nat.mul_div_cancel' (Nat.gcd_dvd_left f 1000),
    Nat.div_pos (Nat.le_of_dvd (by norm_num) (Nat.gcd_dvd_right f 1000)) hg,
    Nat.div_le_self _ _⟩

/-- C2: for every millis value x and tick frequency f with no intermediate u64
overflow, Duration::from_millis produces exactly the ceiling of x * f / 1000
(computed via the GCD-reduced factors), and Duration::from_millis_floor and
Duration::as_millis are the corresponding truncating divisions. -/
theorem from_millis_spec (f x t : Nat) (hf : 0 < f)
    (hx : x * (f / gcd_1k f) + 1000 < U64MOD)
    (ht : t * 1000 < U64MOD) :
    (Duration.from_millis f x).ticks = (x * f + 999) / 1000 ∧
    (Duration.from_millis_floor f x).ticks = x * f / 1000 ∧
    Duration.as_millis f ⟨t⟩ = t * 1000 / f := by
  obtain ⟨hg, hk, hff, kpos, kle⟩ := gcd_1k_facts f
  set g := gcd_1k f with hgdef
  set kg := 1000 / g with hkgdef
  set fg := f / g with hfgdef
  have hxfg : x * fg < U64MOD := by omega
  refine ⟨?_, ?_, ?_⟩
  · simp only [Duration.from_millis]
    rw [Nat.mod_eq_of_lt hxfg, div_ceil_eq _ _ kpos (by omega)]
    calc (x * fg + kg - 1) / kg
        = (x * fg * g + kg * g - 1) / (kg * g) := (div_ceil_scale (x * fg) kg g kpos hg).symm
      _ = (x * f + 1000 - 1) / 1000 := by
          rw [show x * fg * g = x * f by rw [mul_assoc, mul_comm fg g, hff],
            show kg * g = 1000 by rw [mul_comm]; exact hk]
      _ = (x * f + 999) / 1000 := by congr 1
  · simp only [Duration.from_millis_floor]
    rw [Nat.mod_eq_of_lt hxfg]
    calc x * fg / kg
        = x * fg * g / (kg * g) := (Nat.mul_div_mul_right (x * fg) kg hg).symm
      _ = x * f / 1000 := by
          rw [show x * fg * g = x * f by rw [mul_assoc, mul_comm fg g, hff],
            show kg * g = 1000 by rw [mul_comm]; exact hk]
  · simp only [Duration.as_millis]
    have htk : t * kg < U64MOD := by
      have := Nat.mul_le_mul_left t kle
      omega
    rw [Nat.mod_eq_of_lt htk]
    calc t * kg / fg
        = t * kg * g / (fg * g) := (Nat.mul_div_mul_right (t * kg) fg hg).symm
      _ = t * 1000 / f := by
          rw [show t * kg * g = t * 1000 by rw [mul_assoc, mul_comm kg g, hk],
            show fg * g = f by rw [mul_comm]; exact hff]

/-- Closed instance of from_millis_spec at frequency 3, millis 1, ticks 5. -/
theorem from_millis_spec_witness :
    (Duration.from_millis 3 1).ticks = (1 * 3 + 999) / 1000 ∧
    (Duration.from_millis_floor 3 1).ticks = 1 * 3 / 1000 ∧
    Duration.as_millis 3 ⟨5⟩ = 5 * 1000 / 3 :=
  from_millis_spec 3 1 5 (by norm_num) (by rw [gcd_1k_eq]; decide) (by decide)

/-- C1 counterexample: at tick frequency 3 Hz (a non-power-of-ten frequency)
and x = 1 (well within range, no overflow), neither from_millis nor
from_millis_floor round-trips through as_millis. -/
theorem millis_roundtrip_cex :
    Duration.as_millis 3 (Duration.from_millis 3 1) ≠ 1 ∧
    Duration.as_millis 3 (Duration.from_millis_floor 3 1) ≠ 1 := by
  have hg : gcd_1k 3 = 1 := by rw [gcd_1k_eq]; decide
  refine ⟨?_, ?_⟩ <;>
    simp only [Duration.as_millis, Duration.from_millis, Duration.from_millis_floor,
      div_ceil, hg] <;>
    decide

/-- C1 amended: for every tick frequency f with f >= 1000 and every x with no
intermediate u64 overflow, from_millis(x).as_millis() = x; additionally,
from_millis_floor(x).as_millis() = x whenever the conversion is exact
(1000 divides x * f). -/
theorem from_millis_roundtrip (f x : Nat) (hf : 1000 ≤ f)
    (hx : x * (f / gcd_1k f) + 1000 < U64MOD) :
    Duration.as_millis f (Duration.from_millis f x) = x ∧
    (1000 ∣ x * f → Duration.as_millis f (Duration.from_millis_floor f x) = x) := by
  obtain ⟨hg, hk, hff, kpos, kle⟩ := gcd_1k_facts f
  set g := gcd_1k f with hgdef
  set kg := 1000 / g with hkgdef
  set fg := f / g with hfgdef
  have hkgfg : kg ≤ fg := by
    have h1 : g * kg ≤ g * fg := by rw [hk, hff]; exact hf
    exact Nat.le_of_mul_le_mul_left h1 hg
  have hfgpos : 0 < fg := lt_of_lt_of_le kpos hkgfg
  have hxfg : x * fg < U64MOD := by omega
  constructor
  · simp only [Duration.from_millis, Duration.as_millis]
    rw [Nat.mod_eq_of_lt hxfg, div_ceil_eq _ _ kpos (by omega)]
    set A := x * fg with hA
    set t := (A + kg - 1) / kg with htdef
    have htk : t * kg ≤ A + kg - 1 := by rw [htdef]; exact Nat.div_mul_le_self _ _
    have htkU : t * kg < U64MOD := by omega
    rw [Nat.mod_eq_of_lt htkU]
    have hdm := Nat.div_add_mod A kg
    set q := A / kg with hqdef
    set r := A % kg with hrdef
    have hrlt : r < kg := Nat.mod_lt _ kpos
    rcases Nat.eq_zero_or_pos r with h0 | h1
    · have ht : t = q := by
        rw [htdef, show A + kg - 1 = kg * q + (kg - 1) by omega,
          Nat.mul_add_div kpos, Nat.div_eq_of_lt (by omega), Nat.add_zero]
      have h2 : t * kg = fg * x + 0 := by
        have e : t * kg = kg * q := by rw [ht]; ring
        have e2 : fg * x = A := by rw [hA]; ring
        omega
      rw [h2, Nat.add_zero, mul_comm fg x, mul_comm x fg,
        Nat.mul_div_cancel_left x hfgpos]
    · have ht : t = q + 1 := by
        rw [htdef, show A + kg - 1 = kg * q + (r + kg - 1) by omega,
          Nat.mul_add_div kpos, div_eq_one_of _ _ (by omega) (by omega)]
      have h2 : t * kg = fg * x + (kg - r) := by
        have e : t * kg = kg * q + kg := by rw [ht]; ring
        have e2 : fg * x = A := by rw [hA]; ring
        omega
      rw [h2, Nat.mul_add_div hfgpos, Nat.div_eq_of_lt (by omega), Nat.add_zero]
  · intro hdvd
    simp only [Duration.from_millis_floor, Duration.as_millis]
    rw [Nat.mod_eq_of_lt hxfg]
    have hkdvd : kg ∣ x * fg := by
      have h1 : g * kg ∣ g * (x * fg) := by
        rw [hk, show g * (x * fg) = x * f by rw [← hff]; ring]
        exact hdvd
      exact (mul_dvd_mul_iff_left (by omega : g ≠ 0)).mp h1
    have hmul : kg * (x * fg / kg) = x * fg := Nat.mul_div_cancel' hkdvd
    set t := x * fg / kg with htdef
    have e : t * kg = kg * t := by ring
    have htkU : t * kg < U64MOD := by omega
    rw [Nat.mod_eq_of_lt htkU, e, hmul, mul_comm x fg,
      Nat.mul_div_cancel_left x hfgpos]

/-- Closed instance of from_millis_roundtrip at frequency 1000, millis 1. -/
theorem from_millis_roundtrip_witness :
    Duration.as_millis 1000 (Duration.from_millis 1000 1) = 1 ∧
    Duration.as_millis 1000 (Duration.from_millis_floor 1000 1) = 1 :=
  ⟨(from_millis_roundtrip 1000 1 (by norm_num) (by rw [gcd_1k_eq]; decide)).1,
   (from_millis_roundtrip 1000 1 (by norm_num) (by rw [gcd_1k_eq]; decide)).2 (by decide)⟩

/-- C3: at frequency 3, millis = (2^64 - 1) / 3, checked_mul succeeds
(the product is exactly 2^64 - 1), but the num + den - 1 addition inside
div_ceil wraps mod 2^64, so try_from_millis returns Some with 0 ticks
even though the true ceiling-rounded tick count is 18446744073709552:
an intermediate computation of the checked variant wraps. -/
theorem try_from_millis_wraps :
    Duration.try_from_millis 3 6148914691236517205 = some ⟨0⟩ ∧
    (6148914691236517205 * (3 / gcd_1k 3) + (1000 / gcd_1k 3) - 1) / (1000 / gcd_1k 3)
      = 18446744073709552 := by
  have hg : gcd_1k 3 = 1 := by rw [gcd_1k_eq]; decide
  refine ⟨?_, ?_⟩ <;>
    simp only [Duration.try_from_millis, div_ceil, hg] <;>
    decide

/-- C4: checked_add, checked_sub, checked_mul and checked_div return None
exactly on u64 overflow, underflow and division by zero respectively, and
Some of the exact result otherwise; the operator forms (which panic instead
of returning None) compute the same function. -/
theorem checked_arith_spec (a b : Duration) (s : Nat) :
    (a.checked_add b = none ↔ U64MOD ≤ a.ticks + b.ticks) ∧
    (a.ticks + b.ticks < U64MOD → a.checked_add b = some ⟨a.ticks + b.ticks⟩) ∧
    (a.checked_sub b = none ↔ a.ticks < b.ticks) ∧
    (b.ticks ≤ a.ticks → a.checked_sub b = some ⟨a.ticks - b.ticks⟩) ∧
    (a.checked_mul s = none ↔ U64MOD ≤ a.ticks * s) ∧
    (a.ticks * s < U64MOD → a.checked_mul s = some ⟨a.ticks * s⟩) ∧
    (a.checked_div s = none ↔ s = 0) ∧
    (s ≠ 0 → a.checked_div s = some ⟨a.ticks / s⟩) ∧
    a.add b = a.checked_add b ∧ a.sub b = a.checked_sub b ∧
    a.mul s = a.checked_mul s ∧ a.div s = a.checked_div s := by
  unfold Duration.checked_add Duration.checked_sub Duration.checked_mul Duration.checked_div
    Duration.add Duration.sub Duration.mul Duration.div Duration.checked_add
    Duration.checked_sub Duration.checked_mul Duration.checked_div
  refine ⟨?_, ?_, ?_, ?_, ?_, ?_, ?_, ?_, rfl, rfl, rfl, rfl⟩ <;>
    split_ifs <;> simp_all <;> omega

/-- Closed instance of checked_arith_spec: a successful addition and a
division by zero. -/
theorem checked_arith_spec_witness :
    Duration.checked_add ⟨2⟩ ⟨3⟩ = some ⟨5⟩ ∧ Duration.checked_div ⟨2⟩ 0 = none := by
  have h := checked_arith_spec ⟨2⟩ ⟨3⟩ 0
  exact ⟨h.2.1 (by decide), h.2.2.2.2.2.2.1.mpr rfl⟩

/-- C6 counterexample: at tick frequency 2^64 - 1 and hz = 4 (nonzero and
below the frequency), the addition frequency + hz / 2 wraps mod 2^64 and
from_hz returns 0 ticks, not (frequency + hz / 2) / hz = 2^62. -/
theorem from_hz_overflow_cex :
    Duration.from_hz (2 ^ 64 - 1) 4 ≠ some ⟨((2 ^ 64 - 1) + 4 / 2) / 4⟩ := by
  decide

/-- C6 amended: provided frequency + hz / 2 does not overflow u64,
from_hz(hz) is the clamped 1 tick when hz exceeds the tick frequency, and
(frequency + hz / 2) / hz ticks (frequency divided by hz, rounded to
nearest) for every nonzero hz not exceeding the tick frequency. -/
theorem from_hz_spec (f hz : Nat) (hov : f + hz / 2 < U64MOD) :
    (f < hz → Duration.from_hz f hz = some ⟨1⟩) ∧
    (0 < hz → hz ≤ f → Duration.from_hz f hz = some ⟨(f + hz / 2) / hz⟩) := by
  constructor
  · intro h
    simp [Duration.from_hz, Nat.le_of_lt h]
  · intro h0 hle
    rcases Nat.eq_or_lt_of_le hle with heq | hlt
    · subst heq
      have h1 : (hz + hz / 2) / hz = 1 := div_eq_one_of _ _ (by omega) (by omega)
      simp [Duration.from_hz, h1]
    · have hnle : ¬ f ≤ hz := by omega
      have hne : ¬ hz = 0 := by omega
      simp only [Duration.from_hz, if_neg hnle, if_neg hne,
        Nat.mod_eq_of_lt hov]

/-- Closed instance of from_hz_spec at frequency 1000, hz 300. -/
theorem from_hz_spec_witness : Duration.from_hz 1000 300 = some ⟨(1000 + 300 / 2) / 300⟩ :=
  (from_hz_spec 1000 300 (by decide)).2 (by decide) (by decide)

/-- C7: for all Durations a and b whose tick sum does not overflow u64,
(a + b) - b = a, through the panicking operator forms. -/
theorem add_sub_roundtrip (a b : Duration) (h : a.ticks + b.ticks < U64MOD) :
    (a.add b).bind (fun c => c.sub b) = some a := by
  cases a with
  | mk ta =>
    cases b with
    | mk tb =>
      simp only [Duration.add, Duration.checked_add] at *
      rw [if_pos h]
      simp [Option.bind, Duration.sub, Duration.checked_sub, Nat.le_add_left]

/-- Closed instance of add_sub_roundtrip at 41 and 1 ticks. -/
theorem add_sub_roundtrip_witness :
    (Duration.add ⟨41⟩ ⟨1⟩).bind (fun c => Duration.sub c ⟨1⟩) = some ⟨41⟩ :=
  add_sub_roundtrip ⟨41⟩ ⟨1⟩ (by decide)

/-- C9: for every positive tick frequency, from_hz(0) takes the non-clamped
branch and divides by zero, i.e. panics (modelled as none). -/
theorem from_hz_zero (f : Nat) (hf : 0 < f) : Duration.from_hz f 0 = none := by
  simp [Duration.from_hz, Nat.not_le.mpr hf]

/-- Closed instance of from_hz_zero at frequency 1. -/
theorem from_hz_zero_witness : Duration.from_hz 1 0 = none :=
  from_hz_zero 1 (by decide)

theorem runTrace_shape (flag0 : Bool) (pend : Nat → Bool) (n : Nat) :
    ∃ t, runTrace flag0 pend n = Ev.initEv :: t ∧ Ev.initEv ∉ t := by
  induction n with
  | zero => exact ⟨[], rfl, by simp⟩
  | succ n ih =>
    obtain ⟨t, ht, hni⟩ := ih
    refine ⟨t ++ loopIter (flagAt flag0 pend n), ?_, ?_⟩
    · rw [runTrace, ht]
      rfl
    · simp only [List.mem_append]
      intro h
      rcases h with h | h
      · exact hni h
      · cases hb : flagAt flag0 pend n <;> rw [hb] at h <;> simp [loopIter] at h

theorem runTrace_length (flag0 : Bool) (pend : Nat → Bool) (n : Nat) :
    n + 1 ≤ (runTrace flag0 pend n).length := by
  induction n with
  | zero => simp [runTrace]
  | succ n ih =>
    rw [runTrace, List.length_append]
    have h1 : 1 ≤ (loopIter (flagAt flag0 pend n)).length := by
      cases flagAt flag0 pend n <;> simp [loopIter]
    omega

theorem runTrace_count_poll (flag0 : Bool) (pend : Nat → Bool) (n : Nat) :
    (runTrace flag0 pend n).count Ev.pollEv
      = (List.range n).countP (fun i => flagAt flag0 pend i) := by
  induction n with
  | zero => rfl
  | succ n ih =>
    rw [runTrace, List.count_append, ih, List.range_succ, List.countP_append]
    congr 1
    cases hb : flagAt flag0 pend n <;> simp [loopIter, List.count, hb]

theorem runTrace_count_wait (flag0 : Bool) (pend : Nat → Bool) (n : Nat) :
    (runTrace flag0 pend n).count Ev.yieldWaitEv
      = (List.range n).countP (fun i => !flagAt flag0 pend i) := by
  induction n with
  | zero => rfl
  | succ n ih =>
    rw [runTrace, List.count_append, ih, List.range_succ, List.countP_append]
    congr 1
    cases hb : flagAt flag0 pend n <;> simp [loopIter, List.count, hb]

theorem runTrace_count_swap (flag0 : Bool) (pend : Nat → Bool) (n : Nat) :
    (runTrace flag0 pend n).count (Ev.swapEv true)
      + (runTrace flag0 pend n).count (Ev.swapEv false) = n := by
  induction n with
  | zero => rfl
  | succ n ih =>
    cases hb : flagAt flag0 pend n
    · rw [runTrace, hb, List.count_append, List.count_append,
        show (loopIter false).count (Ev.swapEv true) = 0 from rfl,
        show (loopIter false).count (Ev.swapEv false) = 1 from rfl]
      omega
    · rw [runTrace, hb, List.count_append, List.count_append,
        show (loopIter true).count (Ev.swapEv true) = 1 from rfl,
        show (loopIter true).count (Ev.swapEv false) = 0 from rfl]
      omega

/-- C5: Executor::run emits the init event exactly once, at the very start of
the trace (before any poll); the loop never returns (the trace grows without
bound with the iteration count); every iteration performs exactly one swap of
the work flag; iteration i polls exactly when the flag was observed set, and
blocks in yield_wait exactly when it was not. -/
theorem run_loop_behavior (flag0 : Bool) (pend : Nat → Bool) (n : Nat) :
    (runTrace flag0 pend n).head? = some Ev.initEv ∧
    (runTrace flag0 pend n).count Ev.initEv = 1 ∧
    n + 1 ≤ (runTrace flag0 pend n).length ∧
    (runTrace flag0 pend n).count Ev.pollEv
      = (List.range n).countP (fun i => flagAt flag0 pend i) ∧
    (runTrace flag0 pend n).count Ev.yieldWaitEv
      = (List.range n).countP (fun i => !flagAt flag0 pend i) ∧
    (runTrace flag0 pend n).count (Ev.swapEv true)
      + (runTrace flag0 pend n).count (Ev.swapEv false) = n := by
  obtain ⟨t, ht, hni⟩ := runTrace_shape flag0 pend n
  refine ⟨by rw [ht]; rfl, ?_, runTrace_length flag0 pend n,
    runTrace_count_poll flag0 pend n, runTrace_count_wait flag0 pend n,
    runTrace_count_swap flag0 pend n⟩
  rw [ht, List.count_cons_self, List.count_eq_zero.mpr hni]

/-- Closed instance of run_loop_behavior: two iterations with the pender
firing during iteration 0 only. -/
theorem run_loop_behavior_witness :
    (runTrace true (fun i => i = 0) 2).count Ev.pollEv
      = (List.range 2).countP (fun i => flagAt true (fun i => i = 0) i) :=
  (run_loop_behavior true (fun i => i = 0) 2).2.2.2.1

/-- C8: the entry-point macro validation reports no signature error exactly
when the user routine is async, non-generic, has no where-clause, no ABI
qualifier and no variadics, takes exactly one argument, and returns nothing,
the unit type or the never type; and the emitted main body runs the executor
only when no error at all was reported. -/
theorem main_shape_validation (s : FnSig) (fl : Flavor) (stackSize : Option Nat)
    (argErrors : Nat) :
    (sigErrors s = 0 ↔
      (s.isAsync = true ∧ s.numGenerics = 0 ∧ s.hasWhereClause = false ∧
       s.hasAbi = false ∧ s.isVariadic = false ∧
       (s.ret = RetKind.default ∨ s.ret = RetKind.emptyTuple ∨ s.ret = RetKind.never) ∧
       s.numArgs = 1)) ∧
    (mainBody fl stackSize s argErrors = MainBody.runsExecutor ↔
      (sigErrors s = 0 ∧ stackSizeErrors fl stackSize = 0 ∧ argErrors = 0)) := by
  constructor
  · obtain ⟨ia, ng, wc, ab, vd, rt, na⟩ := s
    simp only [sigErrors]
    cases ia <;> cases wc <;> cases ab <;> cases vd <;> cases rt <;>
      simp <;> omega
  · unfold mainBody totalErrors
    split_ifs with h
    · simp only [true_iff]
      omega
    · constructor
      · intro heq
        exact absurd heq (by simp)
      · intro ⟨h1, h2, h3⟩
        omega

/-- Closed instance of main_shape_validation: a well-shaped async routine on
the standard flavor emits the executor-running body. -/
theorem main_shape_validation_witness :
    mainBody Flavor.standard none ⟨true, 0, false, false, false, RetKind.default, 1⟩ 0
      = MainBody.runsExecutor :=
  (main_shape_validation ⟨true, 0, false, false, false, RetKind.default, 1⟩
    Flavor.standard none 0).2.mpr ⟨by decide, by decide, rfl⟩

/-- C10: for the Tock flavor the macro reports an error whenever no
stack_size argument is supplied (and no stack-size error when one is); and
for every flavor the emitted main body is the infinite empty loop exactly
when some validation error occurred. -/
theorem tock_stack_size_required (s : FnSig) (stackSize : Option Nat)
    (argErrors : Nat) (fl : Flavor) (k : Nat) :
    0 < totalErrors Flavor.tock none s argErrors ∧
    stackSizeErrors Flavor.tock (some k) = 0 ∧
    (mainBody fl stackSize s argErrors = MainBody.emptyLoop ↔
      totalErrors fl stackSize s argErrors ≠ 0) := by
  refine ⟨?_, by simp [stackSizeErrors], ?_⟩
  · unfold totalErrors stackSizeErrors
    simp
  · unfold mainBody
    split_ifs with h
    · simp [h]
    · simp [h]

/-- Closed instance of tock_stack_size_required: a well-shaped routine with
no stack_size on the Tock flavor still accumulates an error. -/
theorem tock_stack_size_required_witness :
    0 < totalErrors Flavor.tock none ⟨true, 0, false, false, false, RetKind.default, 1⟩ 0 :=
  (tock_stack_size_required ⟨true, 0, false, false, false, RetKind.default, 1⟩
    none 0 Flavor.tock 0).1
